import Mathlib

/-!
Verification of the CSV upsert application (src/app.py): schema-driven
column mapping, row validation/casting, and reconciliation of validated
rows against an existing keyed table.

Modelling conventions of the shallow embedding:
- Python values flowing through the pipeline are modelled by `Value`.
  Python floats are modelled as rationals (IEEE rounding, infinities and
  NaN are outside the model; the tolerance comparisons the code performs
  are exact on rationals).  Dates are modelled as an integer day count,
  datetimes as a day count plus a time-of-day integer.
- The Python `str()` rendering used by the code for comparisons and for
  boolean parsing is modelled by `pyStr`, injective on each constructor.
- The pandas permissive date parser (`pd.to_datetime`) is an external
  collaborator; functions that need it take it as an explicit argument
  `parseDT : Value -> Option (Int x Int)` returning (day, time-of-day).
- Rows are association lists from column name to `Value`; a missing
  column reads as `vnull`, matching the `row.get(..., None)` accesses.
- The remote store is modelled as the list of its rows; the SQL filter
  of `insert_rows_update_duplicates` becomes a filter on primary-key
  tuples, and the issued INSERT/UPDATE statements become an explicit
  list of `WriteOp`s.
-/

/-- A runtime value of the pipeline: Python None, str, int, float, bool,
date and datetime, with finite floats modelled as rationals and the float
NaN — which pandas uses as the missing value of float dtype — as its own
constructor. -/
inductive Value where
  | vnull : Value
  | vnan : Value
  | vstr : String → Value
  | vint : Int → Value
  | vfloat : ℚ → Value
  | vbool : Bool → Value
  | vdate : Int → Value
  | vdatetime : Int → Int → Value
deriving DecidableEq, Repr

/-- `pd.isnull` on a modelled value: true of None and of the float NaN. -/
def isNull : Value → Bool
  | .vnull => true
  | .vnan => true
  | _ => false

/-- `isinstance(v, float)`: true of finite floats and of NaN, false of
None and every other value. -/
def floatLike : Value → Bool
  | .vfloat _ => true
  | .vnan => true
  | _ => false

/-- Model of the Python `str()` rendering of a value.  It is injective on
each constructor; the date and datetime renderings stand in for the
textual forms, which the code only ever compares for equality. -/
def pyStr : Value → String
  | .vnull => "None"
  | .vnan => "nan"
  | .vstr s => s
  | .vint n => toString n
  | .vfloat q => toString q
  | .vbool true => "True"
  | .vbool false => "False"
  | .vdate d => "date " ++ toString d
  | .vdatetime d t => "datetime " ++ toString d ++ " " ++ toString t

/-- A row: association list from column name to value (first binding wins). -/
abbrev Row := List (String × Value)

/-- Read a value from a row; an absent column reads as null, matching the
`row.get(col, None)` accesses of the source. -/
def getVal (r : Row) (c : String) : Value :=
  match r.find? (fun p => p.1 = c) with
  | some p => p.2
  | none => .vnull

/-- Semantic column types of the schema registry: the Python type tags
str, int, float and the strings "bool", "date", "datetime". -/
inductive SemType where
  | tstr : SemType
  | tint : SemType
  | tfloat : SemType
  | tbool : SemType
  | tdate : SemType
  | tdatetime : SemType
deriving DecidableEq, Repr

/-- normalize_name: lower-case after removing whitespace, underscores and
hyphens (the regex [\s_-] of the source). -/
def normalize_name (s : String) : String :=
  String.mk ((s.data.filter (fun c => !(c.isWhitespace || c = '_' || c = '-'))).map Char.toLower)

/-- Lookup in the dict built by `{normalize_name(col): col for col in required_cols}`:
later entries overwrite earlier ones, hence the first match in the reversed list. -/
def normRequiredLookup (required_cols : List String) (norm : String) : Option String :=
  required_cols.reverse.find? (fun rc => normalize_name rc = norm)

/-- build_column_map: for each uploaded column, map it to the required
column with the same normalized name; unmatched headers are omitted. -/
def build_column_map (uploaded_cols required_cols : List String) : List (String × String) :=
  uploaded_cols.filterMap (fun c =>
    (normRequiredLookup required_cols (normalize_name c)).map (fun rc => (c, rc)))

/-- The schema column an uploaded header is mapped to, if any. -/
def colMapLookup (uploaded_cols required_cols : List String) (c : String) : Option String :=
  ((build_column_map uploaded_cols required_cols).find? (fun p => p.1 = c)).map (·.2)

/-- missing = [col for col in required_cols if col not in col_map.values()] -/
def missing_cols (uploaded_cols required_cols : List String) : List String :=
  required_cols.filter
    (fun col => !((build_column_map uploaded_cols required_cols).map (·.2)).contains col)

/-- extra = [c for c in df.columns if c not in col_map] -/
def extra_cols (uploaded_cols required_cols : List String) : List String :=
  uploaded_cols.filter
    (fun c => !((build_column_map uploaded_cols required_cols).map (·.1)).contains c)

/-- The mapping errors the module-level checks can raise, each carrying
exactly the list its banner message interpolates. -/
inductive MappingError where
  | missingCols : List String → MappingError
  | extraCols : List String → MappingError
  | mapError : MappingError
deriving DecidableEq, Repr

/-- set(a) == set(b) on lists of strings. -/
def sameSet (a b : List String) : Bool :=
  a.all (b.contains ·) && b.all (a.contains ·)

/-- The module-level column checks, in source order: missing first, then
extra, then the set-equality guard. -/
def check_columns (uploaded_cols required_cols : List String) : Option MappingError :=
  let m := missing_cols uploaded_cols required_cols
  let e := extra_cols uploaded_cols required_cols
  if m ≠ [] then some (.missingCols m)
  else if e ≠ [] then some (.extraCols e)
  else if !sameSet ((build_column_map uploaded_cols required_cols).map (·.2)) required_cols then
    some .mapError
  else none

/-! Parsing of numeric strings: a model of Python float() on decimal
literals (optional sign, digits with optional fraction, optional
exponent).  Infinities, NaN and digit-group underscores are outside the
rational model. -/

/-- Numeric value of a digit string. -/
def digitsVal (l : List Char) : Nat :=
  l.foldl (fun a c => a * 10 + (c.toNat - 48)) 0

/-- All characters are decimal digits. -/
def allDigits (l : List Char) : Bool :=
  l.all Char.isDigit

/-- Split a character list on a separator; always at least one group. -/
def splitOnChar (sep : Char) : List Char → List (List Char)
  | [] => [[]]
  | c :: rest =>
    match splitOnChar sep rest with
    | [] => [[c]]
    | g :: gs => if c = sep then [] :: g :: gs else (c :: g) :: gs

/-- Mantissa: digits, or digits.digits with at least one digit present. -/
def parseMantissa (l : List Char) : Option ℚ :=
  match splitOnChar '.' l with
  | [i] =>
    if i ≠ [] ∧ allDigits i then some ((digitsVal i : ℚ)) else none
  | [i, f] =>
    if (i ≠ [] ∨ f ≠ []) ∧ allDigits i ∧ allDigits f then
      some ((digitsVal i : ℚ) + (digitsVal f : ℚ) / (10 : ℚ) ^ f.length)
    else none
  | _ => none

/-- Exponent part: optional sign then a nonempty digit string. -/
def parseExponent (l : List Char) : Option ℤ :=
  let p : ℤ × List Char :=
    match l with
    | '+' :: r => (1, r)
    | '-' :: r => (-1, r)
    | r => (1, r)
  if p.2 ≠ [] ∧ allDigits p.2 then some (p.1 * (digitsVal p.2 : ℤ)) else none

/-- Unsigned numeric literal: mantissa with an optional e-exponent. -/
def parseUnsigned (l : List Char) : Option ℚ :=
  match splitOnChar 'e' l with
  | [m] => parseMantissa m
  | [m, ex] => do
    let q ← parseMantissa m
    let e ← parseExponent ex
    pure (q * (10 : ℚ) ^ e)
  | _ => none

/-- Model of Python float(s) on decimal literals: trim, lower-case,
optional leading sign, then an unsigned literal. -/
def pyParseFloat (s : String) : Option ℚ :=
  match (s.trim.toLower).data with
  | '+' :: r => parseUnsigned r
  | '-' :: r => (parseUnsigned r).map (fun q => -q)
  | t => parseUnsigned t

/-- Row-rejection reasons; each constructor carries the original uploaded
header its banner message interpolates, one constructor per message
template of validate_and_cast_row. -/
inductive Reason where
  | missingValue : String → Reason
  | invalidDate : String → Reason
  | invalidDatetime : String → Reason
  | invalidBoolean : String → Reason
  | nonIntegerValue : String → Reason
  | invalidInteger : String → Reason
  | invalidFloat : String → Reason
  | typeError : String → Reason
deriving DecidableEq, Repr

/-- The missing-value test of validate_and_cast_row: pd.isnull(val) — true
of None and NaN — or a string that is empty after trimming. -/
def isMissing (val : Value) : Bool :=
  match val with
  | .vnull => true
  | .vnan => true
  | .vstr s => s.trim = ""
  | _ => false

/-- One loop iteration of validate_and_cast_row on a single cell: the
missing-value check, then the cast dispatched on the column type.  A
failed numeric parse of a string raises in Python and is caught by the
enclosing except as a type error.  (In the pipeline all cells arrive as
strings, since the CSV is read with dtype=str.) -/
def castCell (parseDT : Value → Option (Int × Int)) (orig : String) (ty : SemType)
    (val : Value) : Except Reason Value :=
  if isMissing val then .error (.missingValue orig)
  else
    match ty with
    | .tdate =>
      match parseDT val with
      | none => .error (.invalidDate orig)
      | some p => .ok (.vdate p.1)
    | .tdatetime =>
      match parseDT val with
      | none => .error (.invalidDatetime orig)
      | some p => .ok (.vdatetime p.1 p.2)
    | .tbool =>
      let s := (pyStr val).trim.toLower
      if s = "true" ∨ s = "1" ∨ s = "yes" then .ok (.vbool true)
      else if s = "false" ∨ s = "0" ∨ s = "no" then .ok (.vbool false)
      else .error (.invalidBoolean orig)
    | .tint =>
      match val with
      | .vint n => .ok (.vint n)
      | .vfloat q => if q.den = 1 then .ok (.vint q.num) else .error (.invalidInteger orig)
      | .vstr s =>
        match pyParseFloat s with
        | none => .error (.typeError orig)
        | some q => if q.den = 1 then .ok (.vint q.num) else .error (.nonIntegerValue orig)
      | _ => .error (.invalidInteger orig)
    | .tfloat =>
      match val with
      | .vint n => .ok (.vfloat n)
      | .vfloat q => .ok (.vfloat q)
      | .vstr s =>
        match pyParseFloat s with
        | none => .error (.typeError orig)
        | some q => .ok (.vfloat q)
      | _ => .error (.invalidFloat orig)
    | .tstr =>
      let s := pyStr val
      if s.trim = "" then .error (.missingValue orig) else .ok (.vstr s)

/-- validate_and_cast_row: walk the column map in order, casting each
mapped cell; the first failing column rejects the whole row with its
reason and later columns are not examined. -/
def validate_and_cast_row (parseDT : Value → Option (Int × Int)) (row : Row)
    (col_map : List (String × String)) (col_types : String → SemType) : Except Reason Row :=
  match col_map with
  | [] => .ok []
  | (orig, req) :: rest =>
    match castCell parseDT orig (col_types req) (getVal row orig) with
    | .error rsn => .error rsn
    | .ok v =>
      match validate_and_cast_row parseDT row rest col_types with
      | .error rsn => .error rsn
      | .ok tail => .ok ((req, v) :: tail)

/-! The reconciler: insert_rows_update_duplicates. -/

/-- The primary-key tuple of a row, in primary-key column order. -/
def keyTuple (pk_cols : List String) (r : Row) : List Value :=
  pk_cols.map (getVal r)

/-- df.drop_duplicates(subset=pk_cols): keep the first row of each
primary-key tuple, dropping later duplicates, preserving order. -/
def dedupAux (pk_cols : List String) (seen : List (List Value)) : List Row → List Row
  | [] => []
  | r :: rest =>
    if keyTuple pk_cols r ∈ seen then dedupAux pk_cols seen rest
    else r :: dedupAux pk_cols (keyTuple pk_cols r :: seen) rest

/-- In-batch primary-key deduplication, first occurrence wins. -/
def dedupByKey (pk_cols : List String) (rows : List Row) : List Row :=
  dedupAux pk_cols [] rows

/-- The per-column value comparison of the diff loop (lines 251-262):
equal when both are null; when both sides are floats (NaN included) the
tolerance test abs(x - y) > 1e-9 decides — and with a NaN operand the
difference is NaN, every comparison against which is False, so the pair
counts as equal; any other pair compares by its str() rendering. -/
def valuesEqual (a b : Value) : Bool :=
  if isNull a && isNull b then true
  else if floatLike a && floatLike b then
    match a, b with
    | .vfloat x, .vfloat y => !decide (|x - y| > (1 : ℚ) / 1000000000)
    | _, _ => true
  else decide (pyStr a = pyStr b)

/-- The dtype normalization of lines 218-237, as it acts on the values the
pipeline can place in a column of each type.  A well-typed value is left
unchanged (on float columns ints and numeric strings coerce to float),
and a missing value becomes the dtype's missing representation: the
string nan under astype(str); NaN under to_numeric on float columns; NA
(null to pd.isnull) on Int64 columns and NaT (null) on date and datetime
columns; astype(bool) turns a missing value into True, NaN being truthy. -/
def pandasNorm : SemType → Value → Value
  | .tstr, .vnull => .vstr "nan"
  | .tstr, .vnan => .vstr "nan"
  | .tstr, v => .vstr (pyStr v)
  | .tfloat, .vnull => .vnan
  | .tfloat, .vint n => .vfloat n
  | .tfloat, .vstr s =>
    match pyParseFloat s with
    | some q => .vfloat q
    | none => .vnan
  | .tfloat, v => v
  | .tint, .vnan => .vnull
  | .tint, v => v
  | .tbool, .vnull => .vbool true
  | .tbool, .vnan => .vbool true
  | .tbool, v => v
  | .tdate, .vnan => .vnull
  | .tdate, v => v
  | .tdatetime, .vnan => .vnull
  | .tdatetime, v => v

/-- The comparison the reconciler applies to one column: both sides pass
through the dtype normalization for the column's type, then the diff
loop's comparison decides. -/
def valuesEqualAt (ty : SemType) (a b : Value) : Bool :=
  valuesEqual (pandasNorm ty a) (pandasNorm ty b)

/-- A batch row is identical to its key-matched existing row when every
non-key column of the batch frame compares equal under its column type. -/
def rowIdentical (cols pk_cols : List String) (col_types : String → SemType)
    (r e : Row) : Bool :=
  cols.all (fun c =>
    if c ∈ pk_cols then true
    else valuesEqualAt (col_types c) (getVal r c) (getVal e c))

/-- A write issued to the store: an INSERT of a row, or an UPDATE of the
non-key columns of the row holding this primary-key tuple. -/
inductive WriteOp where
  | winsert : Row → WriteOp
  | wupdate : List Value → Row → WriteOp
deriving DecidableEq, Repr

/-- The outcome of insert_rows_update_duplicates: the three counts, the
three row sets, and the writes issued to the store in order. -/
structure RecResult where
  inserted : Nat
  updated : Nat
  skipped : Nat
  new_rows : List Row
  updated_rows : List Row
  skipped_rows : List Row
  writes : List WriteOp
deriving DecidableEq, Repr

/-- The pandas left merge with indicator on the primary key: each batch
row with no key-matched existing row yields one unmatched entry; a
matched row yields one entry per key-matched existing row. -/
def mergeLeft (pk_cols : List String) (existing : List Row) : List Row → List (Row × Option Row)
  | [] => []
  | r :: rest =>
    let ms := existing.filter (fun e => keyTuple pk_cols e = keyTuple pk_cols r)
    (if ms = [] then [(r, none)] else ms.map (fun e => (r, some e))) ++
      mergeLeft pk_cols existing rest

/-- insert_rows_update_duplicates: dedupe the batch on the primary key,
fetch the existing rows sharing a batch key, insert everything when
nothing matches, otherwise left-merge and classify each batch row as
new, identical (skip) or changed (update), then issue the inserts and
the updates. -/
def insert_rows_update_duplicates (cols pk_cols : List String)
    (col_types : String → SemType) (store valid_rows : List Row) : RecResult :=
  if valid_rows = [] then ⟨0, 0, 0, [], [], [], []⟩
  else
    let df := dedupByKey pk_cols valid_rows
    let existing := store.filter
      (fun e => df.any (fun r => keyTuple pk_cols e = keyTuple pk_cols r))
    if existing = [] then
      ⟨df.length, 0, 0, df, [], [], df.map .winsert⟩
    else
      let merged := mergeLeft pk_cols existing df
      let new_rows := (merged.filter (fun p => p.2 = none)).map (·.1)
      let pairs := merged.filterMap (fun p => p.2.map (fun e => (p.1, e)))
      let skipped_rows := (pairs.filter (fun p => rowIdentical cols pk_cols col_types p.1 p.2)).map (·.1)
      let updated_rows := (pairs.filter (fun p => !rowIdentical cols pk_cols col_types p.1 p.2)).map (·.1)
      ⟨new_rows.length, updated_rows.length, skipped_rows.length,
       new_rows, updated_rows, skipped_rows,
       new_rows.map .winsert ++
         updated_rows.map (fun r => .wupdate (keyTuple pk_cols r) r)⟩

/-- How a batch row is classified against a store whose keys are unique:
0 when no store row shares its key (new), 1 when the key-matched store
row is identical (skip), 2 when some non-key column differs (update). -/
def rowClass (cols pk_cols : List String) (col_types : String → SemType)
    (store : List Row) (r : Row) : Nat :=
  match store.find? (fun e => keyTuple pk_cols e = keyTuple pk_cols r) with
  | none => 0
  | some e => if rowIdentical cols pk_cols col_types r e then 1 else 2

/-- The reconciler restated over per-row classification; equal to
insert_rows_update_duplicates whenever the store holds at most one row
per primary-key tuple. -/
def reconcileSimple (cols pk_cols : List String) (col_types : String → SemType)
    (store valid_rows : List Row) : RecResult :=
  if valid_rows = [] then ⟨0, 0, 0, [], [], [], []⟩
  else
    let df := dedupByKey pk_cols valid_rows
    let nr := df.filter (fun r => rowClass cols pk_cols col_types store r = 0)
    let sr := df.filter (fun r => rowClass cols pk_cols col_types store r = 1)
    let ur := df.filter (fun r => rowClass cols pk_cols col_types store r = 2)
    ⟨nr.length, ur.length, sr.length, nr, ur, sr,
     nr.map .winsert ++ ur.map (fun r => .wupdate (keyTuple pk_cols r) r)⟩

/-- The module-level upload stages up to row validation: the column
checks run first and a mapping failure stops the upload before any row
is validated; otherwise every row is validated against the built map,
producing the valid rows and the rejected rows with reasons. -/
def process_upload (parseDT : Value → Option (Int × Int))
    (uploaded_cols required_cols : List String) (col_types : String → SemType)
    (rows : List Row) : Except MappingError (List Row × List (Row × Reason)) :=
  match check_columns uploaded_cols required_cols with
  | some e => .error e
  | none =>
    let cmap := build_column_map uploaded_cols required_cols
    let results := rows.map (fun r => (r, validate_and_cast_row parseDT r cmap col_types))
    .ok (results.filterMap (fun x => match x.2 with | .ok c => some c | .error _ => none),
         results.filterMap (fun x => match x.2 with | .error rsn => some (x.1, rsn) | .ok _ => none))

/-- True of an Except value exactly when it is an ok result. -/
def exceptOk {ε α : Type} : Except ε α → Bool
  | .ok _ => true
  | .error _ => false

/-- A trivial stand-in for the external date parser, used to instantiate
theorems on concrete inputs that never reach a date column. -/
def noDT : Value → Option (Int × Int) :=
  fun _ => none

/-- An all-string column typing, used to instantiate theorems on concrete
inputs whose columns are strings. -/
def strTys : String → SemType :=
  fun _ => SemType.tstr

/-- The column typing of the counterexample table: a float column SIG and
string columns elsewhere. -/
def sigTys : String → SemType :=
  fun c => if c = "SIG" then SemType.tfloat else SemType.tstr

/-! Helper lemmas. -/

theorem valuesEqual_refl (v : Value) : valuesEqual v v = true := by
  cases v <;> simp [valuesEqual, isNull, floatLike, pyStr]

theorem rowIdentical_refl (cols pk_cols : List String) (col_types : String → SemType)
    (r : Row) :
    rowIdentical cols pk_cols col_types r r = true := by
  simp only [rowIdentical, List.all_eq_true]
  intro c _hc
  by_cases h : c ∈ pk_cols <;> simp [h, valuesEqualAt, valuesEqual_refl]

theorem dedupAux_subset (pk_cols : List String) (rows : List Row) :
    ∀ seen, ∀ r ∈ dedupAux pk_cols seen rows, r ∈ rows := by
  induction rows with
  | nil => intro seen r hr; simp [dedupAux] at hr
  | cons a t ih =>
    intro seen r hr
    unfold dedupAux at hr
    by_cases h : keyTuple pk_cols a ∈ seen
    · simp only [if_pos h] at hr
      exact List.mem_cons_of_mem a (ih seen r hr)
    · simp only [if_neg h, List.mem_cons] at hr
      rcases hr with h1 | h1

      · exact h1 ▸ List.mem_cons_self a t
      · exact List.mem_cons_of_mem a (ih _ r h1)

theorem dedupAux_keys_nodup (pk_cols : List String) (rows : List Row) :
    ∀ seen, ((dedupAux pk_cols seen rows).map (keyTuple pk_cols)).Nodup ∧
      ∀ k ∈ seen, k ∉ (dedupAux pk_cols seen rows).map (keyTuple pk_cols) := by
  induction rows with
  | nil => intro seen; simp [dedupAux]
  | cons a t ih =>
    intro seen
    by_cases h : keyTuple pk_cols a ∈ seen
    · simpa [dedupAux, h] using ih seen
    · have ih' := ih (keyTuple pk_cols a :: seen)
      constructor
      · simp only [dedupAux, if_neg h, List.map_cons, List.nodup_cons]
        exact ⟨ih'.2 _ (List.mem_cons_self _ _), ih'.1⟩
      · intro k hk
        simp only [dedupAux, if_neg h, List.map_cons, List.mem_cons]
        rintro (h1 | h1)
        · exact h (h1 ▸ hk)
        · exact ih'.2 k (List.mem_cons_of_mem _ hk) h1

theorem dedupByKey_subset (pk_cols : List String) (rows : List Row) :
    ∀ r ∈ dedupByKey pk_cols rows, r ∈ rows :=
  dedupAux_subset pk_cols rows []

theorem dedupByKey_keys_nodup (pk_cols : List String) (rows : List Row) :
    ((dedupByKey pk_cols rows).map (keyTuple pk_cols)).Nodup :=
  (dedupAux_keys_nodup pk_cols rows []).1

theorem dedupByKey_nodup (pk_cols : List String) (rows : List Row) :
    (dedupByKey pk_cols rows).Nodup :=
  List.Nodup.of_map (keyTuple pk_cols) (dedupByKey_keys_nodup pk_cols rows)

theorem find?_eq_some_of_nodup_map {α β : Type} [DecidableEq β] (f : α → β) (l : List α)
    (hnd : (l.map f).Nodup) (e : α) (he : e ∈ l) (k : β) (hk : f e = k) :
    l.find? (fun x => f x = k) = some e := by
  induction l with
  | nil => cases he
  | cons a t ih =>
    simp only [List.map_cons, List.nodup_cons] at hnd
    by_cases h : f a = k
    · have hae : a = e := by
        rcases List.mem_cons.mp he with h1 | h1
        · exact h1.symm
        · exact absurd (by rw [h, ← hk]; exact List.mem_map_of_mem f h1) hnd.1
      rw [List.find?_cons_of_pos _ (by simp [h]), hae]
    · have het : e ∈ t := by
        rcases List.mem_cons.mp he with h1 | h1
        · exact absurd (h1 ▸ hk) h
        · exact h1
      rw [List.find?_cons_of_neg _ (by simp [h])]
      exact ih hnd.2 het

theorem filter_key_of_nodup {α β : Type} [DecidableEq β] (f : α → β) (l : List α)
    (hnd : (l.map f).Nodup) (k : β) :
    l.filter (fun x => f x = k) = (l.find? (fun x => f x = k)).toList := by
  induction l with
  | nil => simp
  | cons a t ih =>
    simp only [List.map_cons, List.nodup_cons] at hnd
    by_cases h : f a = k
    · have ht : t.filter (fun x => f x = k) = [] := by
        rw [List.filter_eq_nil_iff]
        intro x hx hfx
        simp only [decide_eq_true_eq] at hfx
        exact hnd.1 (h ▸ hfx ▸ List.mem_map_of_mem f hx)
      rw [List.filter_cons_of_pos (by simp [h]), List.find?_cons_of_pos _ (by simp [h]), ht]
      rfl
    · rw [List.filter_cons_of_neg (by simp [h]), List.find?_cons_of_neg _ (by simp [h])]
      exact ih hnd.2

theorem mergeLeft_eq_map (pk_cols : List String) (existing store : List Row) (df : List Row)
    (h : ∀ r ∈ df, existing.filter (fun e => keyTuple pk_cols e = keyTuple pk_cols r) =
      (store.find? (fun e => keyTuple pk_cols e = keyTuple pk_cols r)).toList) :
    mergeLeft pk_cols existing df =
      df.map (fun r => (r, store.find? (fun e => keyTuple pk_cols e = keyTuple pk_cols r))) := by
  induction df with
  | nil => rfl
  | cons a t ih =>
    have ht := ih (fun r hr => h r (List.mem_cons_of_mem a hr))
    simp only [mergeLeft, h a (List.mem_cons_self a t), List.map_cons]
    cases hf : store.find? (fun e => keyTuple pk_cols e = keyTuple pk_cols a) <;>
      simp [hf, ht, Option.toList]

theorem map_pair_filter_none {α β : Type} (l : List α) (g : α → Option β) [DecidableEq β] :
    ((l.map (fun r => (r, g r))).filter (fun p => p.2 = none)).map (·.1) =
      l.filter (fun r => g r = none) := by
  induction l with
  | nil => rfl
  | cons a t ih => cases hg : g a <;> simp [hg, ih]

theorem map_pair_filterMap_some {α β : Type} (l : List α) (g : α → Option β) :
    ((l.map (fun r => (r, g r))).filterMap (fun p => p.2.map (fun e => (p.1, e)))) =
      l.filterMap (fun r => (g r).map (fun e => (r, e))) := by
  induction l with
  | nil => rfl
  | cons a t ih => cases hg : g a <;> simp [hg, ih]

theorem filterMap_pair_filter {α β : Type} (l : List α) (g : α → Option β) (q : α → β → Bool) :
    (((l.filterMap (fun r => (g r).map (fun e => (r, e)))).filter
        (fun p => q p.1 p.2)).map (·.1)) =
      l.filter (fun r => ((g r).map (fun e => q r e)).getD false) := by
  induction l with
  | nil => rfl
  | cons a t ih =>
    cases hg : g a
    · simp [hg, ih]
    · rename_i e
      cases hq : q a e <;> simp [hg, hq, ih]

theorem filterMap_pair_filter_not {α β : Type} (l : List α) (g : α → Option β)
    (q : α → β → Bool) :
    (((l.filterMap (fun r => (g r).map (fun e => (r, e)))).filter
        (fun p => !q p.1 p.2)).map (·.1)) =
      l.filter (fun r => ((g r).map (fun e => !q r e)).getD false) := by
  induction l with
  | nil => rfl
  | cons a t ih =>
    cases hg : g a
    · simp [hg, ih]
    · rename_i e
      cases hq : q a e <;> simp [hg, hq, ih]

theorem filter_filter_of_imp {α : Type} (l : List α) (p q : α → Bool)
    (h : ∀ a, p a = true → q a = true) :
    (l.filter q).filter p = l.filter p := by
  induction l with
  | nil => rfl
  | cons a t ih =>
    by_cases hp : p a = true
    · have hq := h a hp
      rw [List.filter_cons_of_pos hq, List.filter_cons_of_pos hp, List.filter_cons_of_pos hp, ih]
    · by_cases hq : q a = true
      · rw [List.filter_cons_of_pos hq, List.filter_cons_of_neg (by simpa using hp),
          List.filter_cons_of_neg (by simpa using hp), ih]
      · rw [List.filter_cons_of_neg (by simpa using hq),
          List.filter_cons_of_neg (by simpa using hp), ih]

theorem rowClass_cases (cols pk_cols : List String) (col_types : String → SemType)
    (store : List Row) (r : Row) :
    rowClass cols pk_cols col_types store r = 0 ∨ rowClass cols pk_cols col_types store r = 1 ∨
      rowClass cols pk_cols col_types store r = 2 := by
  unfold rowClass
  cases store.find? (fun e => keyTuple pk_cols e = keyTuple pk_cols r)
  · exact Or.inl rfl
  · rename_i e
    by_cases h : rowIdentical cols pk_cols col_types r e = true <;> simp [h]

theorem reconcile_eq_simple (cols pk_cols : List String) (col_types : String → SemType)
    (store valid_rows : List Row)
    (hnd : (store.map (keyTuple pk_cols)).Nodup) :
    insert_rows_update_duplicates cols pk_cols col_types store valid_rows =
      reconcileSimple cols pk_cols col_types store valid_rows := by
  by_cases hv : valid_rows = []
  · simp [insert_rows_update_duplicates, reconcileSimple, hv]
  · by_cases hex : store.filter (fun e => (dedupByKey pk_cols valid_rows).any
        (fun r => keyTuple pk_cols e = keyTuple pk_cols r)) = []
    · have hfind : ∀ r ∈ dedupByKey pk_cols valid_rows,
          store.find? (fun e => keyTuple pk_cols e = keyTuple pk_cols r) = none := by
        intro r hr
        rw [List.find?_eq_none]
        intro e he hke
        have hne := List.filter_eq_nil_iff.mp hex e he
        apply hne
        simp only [List.any_eq_true, decide_eq_true_eq]
        exact ⟨r, hr, by simpa using hke⟩
      have h0 : (dedupByKey pk_cols valid_rows).filter
          (fun r => rowClass cols pk_cols col_types store r = 0) = dedupByKey pk_cols valid_rows := by
        rw [List.filter_eq_self]
        intro r hr
        simp [rowClass, hfind r hr]
      have h1 : (dedupByKey pk_cols valid_rows).filter
          (fun r => rowClass cols pk_cols col_types store r = 1) = [] := by
        rw [List.filter_eq_nil_iff]
        intro r hr
        simp [rowClass, hfind r hr]
      have h2 : (dedupByKey pk_cols valid_rows).filter
          (fun r => rowClass cols pk_cols col_types store r = 2) = [] := by
        rw [List.filter_eq_nil_iff]
        intro r hr
        simp [rowClass, hfind r hr]
      simp only [insert_rows_update_duplicates, reconcileSimple, if_neg hv, if_pos hex,
        h0, h1, h2]
      simp
    · have hfil : ∀ r ∈ dedupByKey pk_cols valid_rows,
          (store.filter (fun e => (dedupByKey pk_cols valid_rows).any
              (fun r' => keyTuple pk_cols e = keyTuple pk_cols r'))).filter
            (fun e => keyTuple pk_cols e = keyTuple pk_cols r) =
          (store.find? (fun e => keyTuple pk_cols e = keyTuple pk_cols r)).toList := by
        intro r hr
        rw [filter_filter_of_imp store _ _ (fun e hke => ?_)]
        · exact filter_key_of_nodup (keyTuple pk_cols) store hnd (keyTuple pk_cols r)
        · simp only [decide_eq_true_eq] at hke
          simp only [List.any_eq_true, decide_eq_true_eq]
          exact ⟨r, hr, hke⟩
      have hm := mergeLeft_eq_map pk_cols
        (store.filter (fun e => (dedupByKey pk_cols valid_rows).any
          (fun r' => keyTuple pk_cols e = keyTuple pk_cols r'))) store
        (dedupByKey pk_cols valid_rows) hfil
      have e0 : (dedupByKey pk_cols valid_rows).filter
            (fun r => store.find? (fun e => keyTuple pk_cols e = keyTuple pk_cols r) = none) =
          (dedupByKey pk_cols valid_rows).filter
            (fun r => rowClass cols pk_cols col_types store r = 0) := by
        apply List.filter_congr
        intro r _
        cases hf : store.find? (fun e => keyTuple pk_cols e = keyTuple pk_cols r) with
        | none => simp [rowClass, hf]
        | some e =>
          by_cases hid : rowIdentical cols pk_cols col_types r e = true <;> simp [rowClass, hf, hid]
      have e1 : (dedupByKey pk_cols valid_rows).filter
            (fun r => (((store.find? (fun e => keyTuple pk_cols e = keyTuple pk_cols r)).map
              (fun e => rowIdentical cols pk_cols col_types r e)).getD false)) =
          (dedupByKey pk_cols valid_rows).filter
            (fun r => rowClass cols pk_cols col_types store r = 1) := by
        apply List.filter_congr
        intro r _
        cases hf : store.find? (fun e => keyTuple pk_cols e = keyTuple pk_cols r) with
        | none => simp [rowClass, hf]
        | some e =>
          by_cases hid : rowIdentical cols pk_cols col_types r e = true <;> simp [rowClass, hf, hid]
      have e2 : (dedupByKey pk_cols valid_rows).filter
            (fun r => (((store.find? (fun e => keyTuple pk_cols e = keyTuple pk_cols r)).map
              (fun e => !rowIdentical cols pk_cols col_types r e)).getD false)) =
          (dedupByKey pk_cols valid_rows).filter
            (fun r => rowClass cols pk_cols col_types store r = 2) := by
        apply List.filter_congr
        intro r _
        cases hf : store.find? (fun e => keyTuple pk_cols e = keyTuple pk_cols r) with
        | none => simp [rowClass, hf]
        | some e =>
          by_cases hid : rowIdentical cols pk_cols col_types r e = true <;> simp [rowClass, hf, hid]
      simp only [insert_rows_update_duplicates, reconcileSimple, if_neg hv, if_neg hex, hm,
        map_pair_filter_none, map_pair_filterMap_some, filterMap_pair_filter,
        filterMap_pair_filter_not, e0, e1, e2]

theorem three_way_filter_length {α : Type} (l : List α) (f : α → Nat)
    (h : ∀ x ∈ l, f x = 0 ∨ f x = 1 ∨ f x = 2) :
    (l.filter (fun x => f x = 0)).length + (l.filter (fun x => f x = 2)).length +
      (l.filter (fun x => f x = 1)).length = l.length := by
  induction l with
  | nil => rfl
  | cons a t ih =>
    have ht := ih (fun x hx => h x (List.mem_cons_of_mem a hx))
    rcases h a (List.mem_cons_self a t) with h0 | h1 | h2
    · simp only [List.filter_cons, h0]
      simp only [decide_eq_true_eq]
      simp
      omega
    · simp only [List.filter_cons, h1]
      simp only [decide_eq_true_eq]
      simp
      omega
    · simp only [List.filter_cons, h2]
      simp only [decide_eq_true_eq]
      simp
      omega

/-- C1 (amended): for every store satisfying the primary-key uniqueness
invariant of a keyed table and every batch, each deduplicated row with no
key-matched existing row is classified new and receives exactly one
insert; each row whose key matches an existing row is classified identical
(it lands in the skipped set and no insert and no update for its key is
issued) when every non-key column compares equal under the code's
per-column comparison — which, after dtype normalization, also deems a
null store value on a float column equal to any incoming value (NaN
absorbs the tolerance test) — and changed (exactly one update by its
primary key) when some non-key column differs under that comparison. -/
theorem c1_reconciler_classifies_rows (cols pk_cols : List String)
    (col_types : String → SemType) (store valid_rows : List Row) (r : Row)
    (hnd : (store.map (keyTuple pk_cols)).Nodup)
    (hr : r ∈ dedupByKey pk_cols valid_rows) :
    ((∀ e ∈ store, keyTuple pk_cols e ≠ keyTuple pk_cols r) →
      r ∈ (insert_rows_update_duplicates cols pk_cols col_types store valid_rows).new_rows ∧
      (insert_rows_update_duplicates cols pk_cols col_types store valid_rows).writes.count
        (WriteOp.winsert r) = 1 ∧
      r ∉ (insert_rows_update_duplicates cols pk_cols col_types store valid_rows).updated_rows ∧
      r ∉ (insert_rows_update_duplicates cols pk_cols col_types store valid_rows).skipped_rows) ∧
    (∀ e ∈ store, keyTuple pk_cols e = keyTuple pk_cols r →
      (rowIdentical cols pk_cols col_types r e = true →
        r ∈ (insert_rows_update_duplicates cols pk_cols col_types store valid_rows).skipped_rows ∧
        WriteOp.winsert r ∉ (insert_rows_update_duplicates cols pk_cols col_types store valid_rows).writes ∧
        ∀ row, WriteOp.wupdate (keyTuple pk_cols r) row ∉
          (insert_rows_update_duplicates cols pk_cols col_types store valid_rows).writes) ∧
      (rowIdentical cols pk_cols col_types r e = false →
        r ∈ (insert_rows_update_duplicates cols pk_cols col_types store valid_rows).updated_rows ∧
        (insert_rows_update_duplicates cols pk_cols col_types store valid_rows).writes.count
          (WriteOp.wupdate (keyTuple pk_cols r) r) = 1 ∧
        WriteOp.winsert r ∉ (insert_rows_update_duplicates cols pk_cols col_types store valid_rows).writes)) := by
  have hv : valid_rows ≠ [] := by
    intro h
    rw [h] at hr
    simp [dedupByKey, dedupAux] at hr
  rw [reconcile_eq_simple cols pk_cols col_types store valid_rows hnd]
  simp only [reconcileSimple, if_neg hv]
  have hdfnd : (dedupByKey pk_cols valid_rows).Nodup := dedupByKey_nodup pk_cols valid_rows
  have hkeys := dedupByKey_keys_nodup pk_cols valid_rows
  constructor
  · intro h
    have hfind : store.find? (fun e => keyTuple pk_cols e = keyTuple pk_cols r) = none :=
      List.find?_eq_none.mpr (fun e he => by simpa using h e he)
    have hclass : rowClass cols pk_cols col_types store r = 0 := by simp [rowClass, hfind]
    have hmem : r ∈ (dedupByKey pk_cols valid_rows).filter
        (fun x => rowClass cols pk_cols col_types store x = 0) :=
      List.mem_filter.mpr ⟨hr, by simp [hclass]⟩
    refine ⟨hmem, ?_, ?_, ?_⟩
    · rw [List.count_append]
      have hinj : Function.Injective WriteOp.winsert := by
        intro a b hab
        injection hab
      rw [List.count_map_of_injective _ _ hinj,
        List.count_eq_one_of_mem (List.Nodup.filter _ hdfnd) hmem]
      have hz : (((dedupByKey pk_cols valid_rows).filter
          (fun x => rowClass cols pk_cols col_types store x = 2)).map
            (fun x => WriteOp.wupdate (keyTuple pk_cols x) x)).count (WriteOp.winsert r) = 0 :=
        List.count_eq_zero.mpr (by simp [List.mem_map])
      rw [hz]
    · intro hmem2
      have h2 := (List.mem_filter.mp hmem2).2
      simp [hclass] at h2
    · intro hmem2
      have h2 := (List.mem_filter.mp hmem2).2
      simp [hclass] at h2
  · intro e he hke
    have hfind := find?_eq_some_of_nodup_map (keyTuple pk_cols) store hnd e he _ hke
    constructor
    · intro hid
      have hclass : rowClass cols pk_cols col_types store r = 1 := by simp [rowClass, hfind, hid]
      have hmem : r ∈ (dedupByKey pk_cols valid_rows).filter
          (fun x => rowClass cols pk_cols col_types store x = 1) :=
        List.mem_filter.mpr ⟨hr, by simp [hclass]⟩
      refine ⟨hmem, ?_, ?_⟩
      · intro hw
        rw [List.mem_append] at hw
        rcases hw with hw | hw
        · rw [List.mem_map] at hw
          obtain ⟨x, hx, hxe⟩ := hw
          have hxr : x = r := by injection hxe
          subst hxr
          have h0 := (List.mem_filter.mp hx).2
          simp [hclass] at h0
        · rw [List.mem_map] at hw
          obtain ⟨x, hx, hxe⟩ := hw
          exact WriteOp.noConfusion hxe
      · intro row hw
        rw [List.mem_append] at hw
        rcases hw with hw | hw
        · rw [List.mem_map] at hw
          obtain ⟨x, hx, hxe⟩ := hw
          exact WriteOp.noConfusion hxe
        · rw [List.mem_map] at hw
          obtain ⟨x, hx, hxe⟩ := hw
          have hkx : keyTuple pk_cols x = keyTuple pk_cols r := by injection hxe
          have hxdf : x ∈ dedupByKey pk_cols valid_rows := (List.mem_filter.mp hx).1
          have hxr : x = r := List.inj_on_of_nodup_map hkeys hxdf hr hkx
          subst hxr
          have h2 := (List.mem_filter.mp hx).2
          simp [hclass] at h2
    · intro hid
      have hclass : rowClass cols pk_cols col_types store r = 2 := by simp [rowClass, hfind, hid]
      have hmem : r ∈ (dedupByKey pk_cols valid_rows).filter
          (fun x => rowClass cols pk_cols col_types store x = 2) :=
        List.mem_filter.mpr ⟨hr, by simp [hclass]⟩
      refine ⟨hmem, ?_, ?_⟩
      · rw [List.count_append]
        have hz : (((dedupByKey pk_cols valid_rows).filter
            (fun x => rowClass cols pk_cols col_types store x = 0)).map WriteOp.winsert).count
              (WriteOp.wupdate (keyTuple pk_cols r) r) = 0 :=
          List.count_eq_zero.mpr (by simp [List.mem_map])
        have hinj : Function.Injective (fun x : Row => WriteOp.wupdate (keyTuple pk_cols x) x) := by
          intro a b hab
          injection hab
        rw [hz, List.count_map_of_injective _ _ hinj,
          List.count_eq_one_of_mem (List.Nodup.filter _ hdfnd) hmem]
      · intro hw
        rw [List.mem_append] at hw
        rcases hw with hw | hw
        · rw [List.mem_map] at hw
          obtain ⟨x, hx, hxe⟩ := hw
          have hxr : x = r := by injection hxe
          subst hxr
          have h0 := (List.mem_filter.mp hx).2
          simp [hclass] at h0
        · rw [List.mem_map] at hw
          obtain ⟨x, hx, hxe⟩ := hw
          exact WriteOp.noConfusion hxe

/-- Witness for C1: a store holding key A, a batch row with fresh key B; the
row is classified new. -/
theorem c1_reconciler_classifies_rows_witness :
    [("NAME", Value.vstr "B"), ("V", Value.vint 2)] ∈
      (insert_rows_update_duplicates ["NAME", "V"] ["NAME"] strTys
        [[("NAME", Value.vstr "A"), ("V", Value.vint 1)]]
        [[("NAME", Value.vstr "B"), ("V", Value.vint 2)]]).new_rows :=
  ((c1_reconciler_classifies_rows ["NAME", "V"] ["NAME"] strTys
      [[("NAME", Value.vstr "A"), ("V", Value.vint 1)]]
      [[("NAME", Value.vstr "B"), ("V", Value.vint 2)]]
      [("NAME", Value.vstr "B"), ("V", Value.vint 2)]
      (by decide) (by decide)).1 (by decide)).1

/-- C3: reconciliation is idempotent: against a store holding exactly the
deduplicated rows a previous reconciliation of the same batch inserted,
reconciling again yields zero inserted, zero updated, every deduplicated
row in the skipped set, and no insert or update issued. -/
theorem c3_reconcile_idempotent (cols pk_cols : List String)
    (col_types : String → SemType) (rows : List Row) :
    insert_rows_update_duplicates cols pk_cols col_types (dedupByKey pk_cols rows) rows =
      ⟨0, 0, (dedupByKey pk_cols rows).length, [], [], dedupByKey pk_cols rows, []⟩ := by
  by_cases hv : rows = []
  · subst hv
    simp [insert_rows_update_duplicates, dedupByKey, dedupAux]
  · have hnd := dedupByKey_keys_nodup pk_cols rows
    rw [reconcile_eq_simple cols pk_cols col_types _ rows hnd]
    simp only [reconcileSimple, if_neg hv]
    have hclass : ∀ r ∈ dedupByKey pk_cols rows,
        rowClass cols pk_cols col_types (dedupByKey pk_cols rows) r = 1 := by
      intro r hr
      have hfind := find?_eq_some_of_nodup_map (keyTuple pk_cols) _ hnd r hr _ rfl
      simp [rowClass, hfind, rowIdentical_refl]
    have h0 : (dedupByKey pk_cols rows).filter
        (fun r => rowClass cols pk_cols col_types (dedupByKey pk_cols rows) r = 0) = [] :=
      List.filter_eq_nil_iff.mpr (fun r hr => by simp [hclass r hr])
    have h1 : (dedupByKey pk_cols rows).filter
        (fun r => rowClass cols pk_cols col_types (dedupByKey pk_cols rows) r = 1) =
        dedupByKey pk_cols rows :=
      List.filter_eq_self.mpr (fun r hr => by simp [hclass r hr])
    have h2 : (dedupByKey pk_cols rows).filter
        (fun r => rowClass cols pk_cols col_types (dedupByKey pk_cols rows) r = 2) = [] :=
      List.filter_eq_nil_iff.mpr (fun r hr => by simp [hclass r hr])
    rw [h0, h1, h2]
    simp

/-- C8: when no deduplicated batch key matches any existing key, the diff
machinery is skipped: the whole deduplicated batch is inserted as new and
the updated and skipped counts and row sets are empty. -/
theorem c8_no_match_inserts_all (cols pk_cols : List String)
    (col_types : String → SemType) (store valid_rows : List Row)
    (h : ∀ r ∈ valid_rows, ∀ e ∈ store, keyTuple pk_cols e ≠ keyTuple pk_cols r) :
    insert_rows_update_duplicates cols pk_cols col_types store valid_rows =
      ⟨(dedupByKey pk_cols valid_rows).length, 0, 0,
        dedupByKey pk_cols valid_rows, [], [],
        (dedupByKey pk_cols valid_rows).map WriteOp.winsert⟩ := by
  by_cases hv : valid_rows = []
  · subst hv
    simp [insert_rows_update_duplicates, dedupByKey, dedupAux]
  · have hex : store.filter (fun e => (dedupByKey pk_cols valid_rows).any
        (fun r => keyTuple pk_cols e = keyTuple pk_cols r)) = [] := by
      rw [List.filter_eq_nil_iff]
      intro e he hany
      simp only [List.any_eq_true, decide_eq_true_eq] at hany
      obtain ⟨r, hr, hke⟩ := hany
      exact h r (dedupByKey_subset pk_cols valid_rows r hr) e he hke
    simp only [insert_rows_update_duplicates, if_neg hv, if_pos hex]

/-- Witness for C8: a store with key A and a two-row batch with keys B and C;
everything is inserted, nothing updated or skipped. -/
theorem c8_no_match_inserts_all_witness :
    insert_rows_update_duplicates ["NAME", "V"] ["NAME"] strTys
        [[("NAME", Value.vstr "A"), ("V", Value.vint 1)]]
        [[("NAME", Value.vstr "B"), ("V", Value.vint 2)],
         [("NAME", Value.vstr "C"), ("V", Value.vint 3)]] =
      ⟨2, 0, 0,
        [[("NAME", Value.vstr "B"), ("V", Value.vint 2)],
         [("NAME", Value.vstr "C"), ("V", Value.vint 3)]], [], [],
        [WriteOp.winsert [("NAME", Value.vstr "B"), ("V", Value.vint 2)],
         WriteOp.winsert [("NAME", Value.vstr "C"), ("V", Value.vint 3)]]⟩ := by
  rw [c8_no_match_inserts_all ["NAME", "V"] ["NAME"] strTys
    [[("NAME", Value.vstr "A"), ("V", Value.vint 1)]]
    [[("NAME", Value.vstr "B"), ("V", Value.vint 2)],
     [("NAME", Value.vstr "C"), ("V", Value.vint 3)]] (by decide)]
  decide

/-- C10: for a non-empty batch and a store with at most one row per
primary-key tuple, the new, updated and skipped row sets partition the
deduplicated batch: each deduplicated row lands in exactly one of the
three row sets, and inserted + updated + skipped equals the number of
rows after primary-key deduplication. -/
theorem c10_counts_partition (cols pk_cols : List String)
    (col_types : String → SemType) (store valid_rows : List Row)
    (hne : valid_rows ≠ [])
    (hnd : (store.map (keyTuple pk_cols)).Nodup) :
    (∀ r ∈ dedupByKey pk_cols valid_rows,
      (r ∈ (insert_rows_update_duplicates cols pk_cols col_types store valid_rows).new_rows ∧
        r ∉ (insert_rows_update_duplicates cols pk_cols col_types store valid_rows).updated_rows ∧
        r ∉ (insert_rows_update_duplicates cols pk_cols col_types store valid_rows).skipped_rows) ∨
      (r ∉ (insert_rows_update_duplicates cols pk_cols col_types store valid_rows).new_rows ∧
        r ∈ (insert_rows_update_duplicates cols pk_cols col_types store valid_rows).updated_rows ∧
        r ∉ (insert_rows_update_duplicates cols pk_cols col_types store valid_rows).skipped_rows) ∨
      (r ∉ (insert_rows_update_duplicates cols pk_cols col_types store valid_rows).new_rows ∧
        r ∉ (insert_rows_update_duplicates cols pk_cols col_types store valid_rows).updated_rows ∧
        r ∈ (insert_rows_update_duplicates cols pk_cols col_types store valid_rows).skipped_rows)) ∧
    (insert_rows_update_duplicates cols pk_cols col_types store valid_rows).inserted +
      (insert_rows_update_duplicates cols pk_cols col_types store valid_rows).updated +
      (insert_rows_update_duplicates cols pk_cols col_types store valid_rows).skipped =
      (dedupByKey pk_cols valid_rows).length := by
  rw [reconcile_eq_simple cols pk_cols col_types store valid_rows hnd]
  simp only [reconcileSimple, if_neg hne]
  constructor
  · intro r hr
    rcases rowClass_cases cols pk_cols col_types store r with h | h | h
    · refine Or.inl ⟨List.mem_filter.mpr ⟨hr, by simp [h]⟩, ?_, ?_⟩ <;>
        · intro hm
          have h2 := (List.mem_filter.mp hm).2
          simp [h] at h2
    · refine Or.inr (Or.inr ⟨?_, ?_, List.mem_filter.mpr ⟨hr, by simp [h]⟩⟩) <;>
        · intro hm
          have h2 := (List.mem_filter.mp hm).2
          simp [h] at h2
    · refine Or.inr (Or.inl ⟨?_, List.mem_filter.mpr ⟨hr, by simp [h]⟩, ?_⟩) <;>
        · intro hm
          have h2 := (List.mem_filter.mp hm).2
          simp [h] at h2
  · exact three_way_filter_length (dedupByKey pk_cols valid_rows)
      (rowClass cols pk_cols col_types store)
      (fun x _ => rowClass_cases cols pk_cols col_types store x)

/-- Witness for C10: one changed row, one identical row, one new row and an
in-batch duplicate; the changed row lands only in the updated set and
1 + 1 + 1 = 3 deduplicated rows. -/
theorem c10_counts_partition_witness :
    ([("NAME", Value.vstr "A"), ("V", Value.vstr "2")] ∈
        (insert_rows_update_duplicates ["NAME", "V"] ["NAME"] strTys
          [[("NAME", Value.vstr "A"), ("V", Value.vstr "1")],
           [("NAME", Value.vstr "B"), ("V", Value.vstr "5")]]
          [[("NAME", Value.vstr "A"), ("V", Value.vstr "2")],
           [("NAME", Value.vstr "B"), ("V", Value.vstr "5")],
           [("NAME", Value.vstr "C"), ("V", Value.vstr "3")],
           [("NAME", Value.vstr "C"), ("V", Value.vstr "9")]]).updated_rows ∧
      (insert_rows_update_duplicates ["NAME", "V"] ["NAME"] strTys
          [[("NAME", Value.vstr "A"), ("V", Value.vstr "1")],
           [("NAME", Value.vstr "B"), ("V", Value.vstr "5")]]
          [[("NAME", Value.vstr "A"), ("V", Value.vstr "2")],
           [("NAME", Value.vstr "B"), ("V", Value.vstr "5")],
           [("NAME", Value.vstr "C"), ("V", Value.vstr "3")],
           [("NAME", Value.vstr "C"), ("V", Value.vstr "9")]]).inserted +
        (insert_rows_update_duplicates ["NAME", "V"] ["NAME"] strTys
          [[("NAME", Value.vstr "A"), ("V", Value.vstr "1")],
           [("NAME", Value.vstr "B"), ("V", Value.vstr "5")]]
          [[("NAME", Value.vstr "A"), ("V", Value.vstr "2")],
           [("NAME", Value.vstr "B"), ("V", Value.vstr "5")],
           [("NAME", Value.vstr "C"), ("V", Value.vstr "3")],
           [("NAME", Value.vstr "C"), ("V", Value.vstr "9")]]).updated +
        (insert_rows_update_duplicates ["NAME", "V"] ["NAME"] strTys
          [[("NAME", Value.vstr "A"), ("V", Value.vstr "1")],
           [("NAME", Value.vstr "B"), ("V", Value.vstr "5")]]
          [[("NAME", Value.vstr "A"), ("V", Value.vstr "2")],
           [("NAME", Value.vstr "B"), ("V", Value.vstr "5")],
           [("NAME", Value.vstr "C"), ("V", Value.vstr "3")],
           [("NAME", Value.vstr "C"), ("V", Value.vstr "9")]]).skipped =
        (dedupByKey ["NAME"]
          [[("NAME", Value.vstr "A"), ("V", Value.vstr "2")],
           [("NAME", Value.vstr "B"), ("V", Value.vstr "5")],
           [("NAME", Value.vstr "C"), ("V", Value.vstr "3")],
           [("NAME", Value.vstr "C"), ("V", Value.vstr "9")]]).length) := by
  have h := c10_counts_partition ["NAME", "V"] ["NAME"] strTys
    [[("NAME", Value.vstr "A"), ("V", Value.vstr "1")],
     [("NAME", Value.vstr "B"), ("V", Value.vstr "5")]]
    [[("NAME", Value.vstr "A"), ("V", Value.vstr "2")],
     [("NAME", Value.vstr "B"), ("V", Value.vstr "5")],
     [("NAME", Value.vstr "C"), ("V", Value.vstr "3")],
     [("NAME", Value.vstr "C"), ("V", Value.vstr "9")]]
    (by decide) (by decide)
  refine ⟨?_, h.2⟩
  have hm := h.1 [("NAME", Value.vstr "A"), ("V", Value.vstr "2")] (by decide)
  rcases hm with ⟨h1, _, _⟩ | ⟨_, h2, _⟩ | ⟨_, _, h3⟩
  · exact absurd h1 (by with_unfolding_all decide)
  · exact h2
  · exact absurd h3 (by with_unfolding_all decide)

/-- Both values are floats. -/
def bothFloat (a b : Value) : Bool :=
  match a, b with
  | .vfloat _, .vfloat _ => true
  | _, _ => false

/-- The claim's characterization of per-column equality, stated for
comparison with the code: both null, or both finite floats within 1e-9,
or otherwise equal canonical string forms. -/
def specValuesEqual (a b : Value) : Prop :=
  (isNull a = true ∧ isNull b = true) ∨
  (∃ x y : ℚ, a = .vfloat x ∧ b = .vfloat y ∧ |x - y| ≤ 1 / 1000000000) ∨
  (¬(isNull a = true ∧ isNull b = true) ∧ bothFloat a b = false ∧ pyStr a = pyStr b)

/-- Counterexample to C2: on a float column the dtype normalization turns a
store null into NaN, and the tolerance test abs(x - NaN) > 1e-9 is False,
so the code deems an incoming float equal to a store null — though the
pair is not both-null, is not a pair of finite floats within tolerance,
and its canonical string forms differ. -/
theorem c2_counterexample_null_float_column :
    valuesEqualAt .tfloat (.vfloat (mkRat 7 2)) .vnull = true ∧
    ¬ specValuesEqual (.vfloat (mkRat 7 2)) .vnull := by
  refine ⟨rfl, ?_⟩
  rintro (⟨h1, _⟩ | ⟨x, y, _, hb, _⟩ | ⟨_, _, hstr⟩)
  · simp [isNull] at h1
  · exact Value.noConfusion hb
  · exact absurd hstr (by with_unfolding_all decide)

/-- C2 (amended): after the dtype normalization, the diff loop's comparison
deems two values equal exactly when both are null, or both sides are
floats (NaN included) and either side is NaN (every comparison against
NaN is False, so the tolerance test passes) or both are finite and within
an absolute tolerance of 1e-9, or otherwise their rendered string forms
are equal.  Consequently on a float column a null compares equal to every
value, floats 5e-10 apart are identical and floats 1e-8 apart are
changed; on a string column a null renders as the string nan and compares
equal exactly to that string. -/
theorem c2_value_comparison_amended :
    (∀ a b : Value, valuesEqual a b = true ↔
      ((isNull a = true ∧ isNull b = true) ∨
       (floatLike a = true ∧ floatLike b = true ∧
         (a = .vnan ∨ b = .vnan ∨
          ∃ x y : ℚ, a = .vfloat x ∧ b = .vfloat y ∧ |x - y| ≤ 1 / 1000000000)) ∨
       (¬(isNull a = true ∧ isNull b = true) ∧
         ¬(floatLike a = true ∧ floatLike b = true) ∧ pyStr a = pyStr b))) ∧
    (∀ q : ℚ, valuesEqualAt .tfloat (.vfloat q) .vnull = true) ∧
    (∀ q : ℚ, valuesEqualAt .tfloat .vnull (.vfloat q) = true) ∧
    valuesEqualAt .tfloat (.vfloat 0) (.vfloat (1 / 2000000000)) = true ∧
    valuesEqualAt .tfloat (.vfloat 0) (.vfloat (1 / 100000000)) = false ∧
    (∀ s : String, valuesEqualAt .tstr (.vstr s) .vnull = decide (s = "nan")) := by
  refine ⟨?_, fun q => rfl, fun q => rfl, ?_, ?_, fun s => rfl⟩
  · intro a b
    cases a <;> cases b <;> simp [valuesEqual, isNull, floatLike, pyStr, not_lt]
  · show valuesEqual (.vfloat 0) (.vfloat (1 / 2000000000)) = true
    simp only [valuesEqual, isNull, floatLike, Bool.false_and, Bool.and_self, if_neg]
    rw [zero_sub, abs_neg, abs_of_nonneg (by norm_num)]
    norm_num
  · show valuesEqual (.vfloat 0) (.vfloat (1 / 100000000)) = false
    simp only [valuesEqual, isNull, floatLike, Bool.false_and, Bool.and_self, if_neg]
    rw [zero_sub, abs_neg, abs_of_nonneg (by norm_num)]
    norm_num

/-- Counterexample to C1: the store row for key X holds NULL in the non-key
float column SIG and the incoming row holds the float 7/2 — a pair the
claim counts as differing — yet the reconciler classifies the row
identical: it lands in the skipped set, the updated count is zero and no
write is issued. -/
theorem c1_counterexample_null_float :
    keyTuple ["ID"] [("ID", Value.vstr "X"), ("SIG", Value.vnull)] =
      keyTuple ["ID"] [("ID", Value.vstr "X"), ("SIG", Value.vfloat (mkRat 7 2))] ∧
    ¬ specValuesEqual (Value.vfloat (mkRat 7 2)) Value.vnull ∧
    insert_rows_update_duplicates ["ID", "SIG"] ["ID"] sigTys
        [[("ID", Value.vstr "X"), ("SIG", Value.vnull)]]
        [[("ID", Value.vstr "X"), ("SIG", Value.vfloat (mkRat 7 2))]] =
      ⟨0, 0, 1, [], [],
        [[("ID", Value.vstr "X"), ("SIG", Value.vfloat (mkRat 7 2))]], []⟩ := by
  refine ⟨by decide, ?_, by with_unfolding_all decide⟩
  rintro (⟨h1, _⟩ | ⟨x, y, _, hb, _⟩ | ⟨_, _, hstr⟩)
  · simp [isNull] at h1
  · exact Value.noConfusion hb
  · exact absurd hstr (by with_unfolding_all decide)

/-- Every key of the built column map is an uploaded header, paired with
the required column its normalized form points to. -/
theorem mem_build_column_map (uploaded_cols required_cols : List String)
    (p : String × String) :
    p ∈ build_column_map uploaded_cols required_cols ↔
      p.1 ∈ uploaded_cols ∧
        normRequiredLookup required_cols (normalize_name p.1) = some p.2 := by
  unfold build_column_map
  rw [List.mem_filterMap]
  constructor
  · rintro ⟨c, hc, hfc⟩
    cases hl : normRequiredLookup required_cols (normalize_name c) with
    | none => rw [hl] at hfc; cases hfc
    | some rc =>
      rw [hl] at hfc
      have hp : (c, rc) = p := by
        have hfc2 : some (c, rc) = some p := hfc
        injection hfc2
      subst hp
      exact ⟨hc, hl⟩
  · rintro ⟨h1, h2⟩
    exact ⟨p.1, h1, by rw [h2]; rfl⟩

/-- Unfolding of the column map on a cons of the uploaded headers. -/
theorem build_column_map_cons (a : String) (t required_cols : List String) :
    build_column_map (a :: t) required_cols =
      ((normRequiredLookup required_cols (normalize_name a)).map
        (fun rc => (a, rc))).toList ++ build_column_map t required_cols := by
  unfold build_column_map
  rw [List.filterMap_cons]
  cases normRequiredLookup required_cols (normalize_name a) <;> simp

/-- For an uploaded header, the mapped schema column is determined by the
normalized form of the header. -/
theorem colMapLookup_eq_norm (uploaded_cols required_cols : List String) (c : String)
    (hc : c ∈ uploaded_cols) :
    colMapLookup uploaded_cols required_cols c =
      normRequiredLookup required_cols (normalize_name c) := by
  induction uploaded_cols with
  | nil => cases hc
  | cons a t ih =>
    unfold colMapLookup
    rw [build_column_map_cons]
    by_cases hac : a = c
    · subst hac
      cases hl : normRequiredLookup required_cols (normalize_name a) with
      | some rc =>
        simp [hl]
      | none =>
        by_cases hat : a ∈ t
        · exact (ih hat).trans hl
        · have hnone : (build_column_map t required_cols).find? (fun p => p.1 = a) = none := by
            rw [List.find?_eq_none]
            intro p hp hpa
            simp only [decide_eq_true_eq] at hpa
            have := (mem_build_column_map t required_cols p).mp hp
            exact hat (hpa ▸ this.1)
          simp [hnone]
    · have hct : c ∈ t := by
        rcases List.mem_cons.mp hc with h | h
        · exact absurd h.symm hac
        · exact h
      have hres := ih hct
      cases hl : normRequiredLookup required_cols (normalize_name a) with
      | some rc =>
        simpa [colMapLookup, hl, hac, List.find?_cons_of_neg] using hres
      | none =>
        simpa [colMapLookup, hl] using hres

/-- C9: name normalization strips whitespace, underscores and hyphens and
lower-cases (total on strings; witnessed on the spec triple, which all
normalize to "logdate"), and any two uploaded headers with identical
normalized forms are mapped to the same schema column. -/
theorem c9_normalization_identifies_headers (uploaded_cols required_cols : List String) :
    (normalize_name "Log Date" = "logdate" ∧ normalize_name "log_date" = "logdate" ∧
      normalize_name "LOG-DATE" = "logdate") ∧
    ∀ c1 ∈ uploaded_cols, ∀ c2 ∈ uploaded_cols,
      normalize_name c1 = normalize_name c2 →
      colMapLookup uploaded_cols required_cols c1 =
        colMapLookup uploaded_cols required_cols c2 := by
  refine ⟨⟨by decide, by decide, by decide⟩, ?_⟩
  intro c1 h1 c2 h2 hn
  rw [colMapLookup_eq_norm uploaded_cols required_cols c1 h1,
    colMapLookup_eq_norm uploaded_cols required_cols c2 h2, hn]

/-- Witness for C9: with headers Log Date and LOG-DATE both present, both
map to the schema column LOG_DATE. -/
theorem c9_normalization_identifies_headers_witness :
    colMapLookup ["Log Date", "LOG-DATE"] ["LOG_DATE"] "Log Date" =
      colMapLookup ["Log Date", "LOG-DATE"] ["LOG_DATE"] "LOG-DATE" :=
  (c9_normalization_identifies_headers ["Log Date", "LOG-DATE"] ["LOG_DATE"]).2
    "Log Date" (by decide) "LOG-DATE" (by decide) (by decide)

deriving instance DecidableEq for Except

/-- The missing-column list carried by a mapping failure, if any. -/
def reportedMissingList : Option MappingError → List String
  | some (.missingCols l) => l
  | _ => []

/-- The extra-column list carried by a mapping failure, if any. -/
def reportedExtraList : Option MappingError → List String
  | some (.extraCols l) => l
  | _ => []

/-- The claim reading of the reporting contract, for comparison with the
checks of the source: a failing column-mapping stage reports the
missing-column list and the extra-column list together in one failure. -/
def reportsBothLists (uploaded_cols required_cols : List String) : Prop :=
  reportedMissingList (check_columns uploaded_cols required_cols) =
      missing_cols uploaded_cols required_cols ∧
    reportedExtraList (check_columns uploaded_cols required_cols) =
      extra_cols uploaded_cols required_cols

/-- Counterexample to C4: headers NAME, FOO against required NAME, LOG_DATE
have both a missing column (LOG_DATE) and an extra column (FOO), yet the
failure raised carries only the missing list; the extra list is not
reported with it. -/
theorem c4_counterexample_both_lists :
    missing_cols ["NAME", "FOO"] ["NAME", "LOG_DATE"] = ["LOG_DATE"] ∧
    extra_cols ["NAME", "FOO"] ["NAME", "LOG_DATE"] = ["FOO"] ∧
    check_columns ["NAME", "FOO"] ["NAME", "LOG_DATE"] =
      some (.missingCols ["LOG_DATE"]) ∧
    ¬ reportsBothLists ["NAME", "FOO"] ["NAME", "LOG_DATE"] := by
  refine ⟨by decide, by decide, by decide, ?_⟩
  intro h
  exact absurd h.2 (by decide)

/-- C4 (amended): the column checks run before any row is processed, but
when required columns are missing the failure reports only the
missing-column list (missing takes priority); the extra-column failure is
raised only when no required column is missing. -/
theorem c4_missing_reported_first (parseDT : Value → Option (Int × Int))
    (uploaded_cols required_cols : List String) (col_types : String → SemType)
    (rows : List Row) :
    (missing_cols uploaded_cols required_cols ≠ [] →
      check_columns uploaded_cols required_cols =
        some (.missingCols (missing_cols uploaded_cols required_cols)) ∧
      process_upload parseDT uploaded_cols required_cols col_types rows =
        .error (.missingCols (missing_cols uploaded_cols required_cols))) ∧
    (missing_cols uploaded_cols required_cols = [] →
      extra_cols uploaded_cols required_cols ≠ [] →
      check_columns uploaded_cols required_cols =
        some (.extraCols (extra_cols uploaded_cols required_cols)) ∧
      process_upload parseDT uploaded_cols required_cols col_types rows =
        .error (.extraCols (extra_cols uploaded_cols required_cols))) := by
  constructor
  · intro hm
    have hc : check_columns uploaded_cols required_cols =
        some (.missingCols (missing_cols uploaded_cols required_cols)) := by
      simp [check_columns, hm]
    exact ⟨hc, by simp [process_upload, hc]⟩
  · intro hm he
    have hc : check_columns uploaded_cols required_cols =
        some (.extraCols (extra_cols uploaded_cols required_cols)) := by
      simp [check_columns, hm, he]
    exact ⟨hc, by simp [process_upload, hc]⟩

/-- Witness for the amended C4: with headers NAME, FOO the upload fails with
the missing list alone, before any of the rows is validated. -/
theorem c4_missing_reported_first_witness :
    process_upload noDT ["NAME", "FOO"] ["NAME", "LOG_DATE"]
        (fun _ => SemType.tstr) [[("NAME", Value.vstr "A")]] =
      .error (.missingCols ["LOG_DATE"]) := by
  have h := ((c4_missing_reported_first noDT ["NAME", "FOO"] ["NAME", "LOG_DATE"]
    (fun _ => SemType.tstr) [[("NAME", Value.vstr "A")]]).1 (by decide)).2
  rw [h]
  decide

/-- The claim reading of the mapping contract: the built mapping is a
bijection of the uploaded headers onto the required columns. -/
def bijectiveOntoRequired (uploaded_cols required_cols : List String) : Prop :=
  (∀ rc ∈ required_cols, ∃ c ∈ uploaded_cols,
    colMapLookup uploaded_cols required_cols c = some rc) ∧
  (∀ c ∈ uploaded_cols, ∃ rc,
    colMapLookup uploaded_cols required_cols c = some rc) ∧
  (∀ c1 ∈ uploaded_cols, ∀ c2 ∈ uploaded_cols, ∀ rc,
    colMapLookup uploaded_cols required_cols c1 = some rc →
    colMapLookup uploaded_cols required_cols c2 = some rc → c1 = c2)

/-- Counterexample to C5: with headers NAME, name, LOG_DATE the upload
proceeds (no mapping error), yet both NAME and name map to the same
required column, so the mapping is not a bijection onto the required
columns. -/
theorem c5_counterexample_not_injective :
    check_columns ["NAME", "name", "LOG_DATE"] ["NAME", "LOG_DATE"] = none ∧
    colMapLookup ["NAME", "name", "LOG_DATE"] ["NAME", "LOG_DATE"] "NAME" =
      some "NAME" ∧
    colMapLookup ["NAME", "name", "LOG_DATE"] ["NAME", "LOG_DATE"] "name" =
      some "NAME" ∧
    ¬ bijectiveOntoRequired ["NAME", "name", "LOG_DATE"] ["NAME", "LOG_DATE"] := by
  refine ⟨by decide, by decide, by decide, fun h => ?_⟩
  have h12 := h.2.2 "NAME" (by decide) "name" (by decide) "NAME" (by decide) (by decide)
  exact absurd h12 (by decide)

/-- Every mapped value is one of the required columns. -/
theorem values_subset_required (uploaded_cols required_cols : List String) :
    ∀ v ∈ (build_column_map uploaded_cols required_cols).map (·.2),
      v ∈ required_cols := by
  intro v hv
  rw [List.mem_map] at hv
  obtain ⟨p, hp, hpv⟩ := hv
  have h2 := ((mem_build_column_map uploaded_cols required_cols p).mp hp).2
  have h3 := List.mem_of_find?_eq_some h2
  exact hpv ▸ List.mem_reverse.mp h3

/-- C5 (amended): the upload proceeds past column mapping exactly when the
built mapping hits every required column and maps every uploaded header;
injectivity is not enforced, so two distinct headers with the same
normalized form may map to the same required column (see the
counterexample). -/
theorem c5_mapping_totality_iff (uploaded_cols required_cols : List String) :
    check_columns uploaded_cols required_cols = none ↔
      ((∀ rc ∈ required_cols, ∃ p ∈ build_column_map uploaded_cols required_cols,
          p.2 = rc) ∧
       (∀ c ∈ uploaded_cols, ∃ p ∈ build_column_map uploaded_cols required_cols,
          p.1 = c)) := by
  constructor
  · intro h
    have hm : missing_cols uploaded_cols required_cols = [] := by
      by_contra hm
      simp [check_columns, hm] at h
    have he : extra_cols uploaded_cols required_cols = [] := by
      by_contra he
      simp [check_columns, hm, he] at h
    constructor
    · intro rc hrc
      have hnc := List.filter_eq_nil_iff.mp hm rc hrc
      simp only [Bool.not_eq_true', Bool.not_eq_eq_eq_not, decide_eq_true_eq] at hnc
      have hmem : rc ∈ (build_column_map uploaded_cols required_cols).map (·.2) := by
        simpa using hnc
      rw [List.mem_map] at hmem
      obtain ⟨p, hp, hpv⟩ := hmem
      exact ⟨p, hp, hpv⟩
    · intro c hc
      have hnc := List.filter_eq_nil_iff.mp he c hc
      have hmem : c ∈ (build_column_map uploaded_cols required_cols).map (·.1) := by
        simpa using hnc
      rw [List.mem_map] at hmem
      obtain ⟨p, hp, hpv⟩ := hmem
      exact ⟨p, hp, hpv⟩
  · rintro ⟨h1, h2⟩
    have hm : missing_cols uploaded_cols required_cols = [] := by
      rw [missing_cols, List.filter_eq_nil_iff]
      intro rc hrc hcond
      obtain ⟨p, hp, hpv⟩ := h1 rc hrc
      have : rc ∈ (build_column_map uploaded_cols required_cols).map (·.2) :=
        List.mem_map.mpr ⟨p, hp, hpv⟩
      simp [this] at hcond
    have he : extra_cols uploaded_cols required_cols = [] := by
      rw [extra_cols, List.filter_eq_nil_iff]
      intro c hc hcond
      obtain ⟨p, hp, hpv⟩ := h2 c hc
      have : c ∈ (build_column_map uploaded_cols required_cols).map (·.1) :=
        List.mem_map.mpr ⟨p, hp, hpv⟩
      simp [this] at hcond
    have hss : sameSet ((build_column_map uploaded_cols required_cols).map (·.2))
        required_cols = true := by
      simp only [sameSet, Bool.and_eq_true, List.all_eq_true]
      constructor
      · intro v hv
        simpa using values_subset_required uploaded_cols required_cols v hv
      · intro rc hrc
        obtain ⟨p, hp, hpv⟩ := h1 rc hrc
        have : rc ∈ (build_column_map uploaded_cols required_cols).map (·.2) :=
          List.mem_map.mpr ⟨p, hp, hpv⟩
        simpa using this
    simp [check_columns, hm, he, hss]

/-- Validation on a column map that fails first at a given column rejects
the row with that reason, whatever columns follow. -/
theorem validate_error_at_first_failure (parseDT : Value → Option (Int × Int)) (row : Row)
    (col_types : String → SemType) :
    ∀ (pre : List (String × String)) (orig req : String)
      (post : List (String × String)) (rsn : Reason),
      (∀ x ∈ pre, exceptOk (castCell parseDT x.1 (col_types x.2) (getVal row x.1)) = true) →
      castCell parseDT orig (col_types req) (getVal row orig) = .error rsn →
      validate_and_cast_row parseDT row (pre ++ (orig, req) :: post) col_types = .error rsn := by
  intro pre
  induction pre with
  | nil =>
    intro orig req post rsn _ herr
    simp [validate_and_cast_row, herr]
  | cons x t ih =>
    intro orig req post rsn hpre herr
    obtain ⟨xo, xr⟩ := x
    obtain ⟨v, hv⟩ : ∃ v, castCell parseDT xo (col_types xr) (getVal row xo) = .ok v := by
      have hx := hpre (xo, xr) (List.mem_cons_self _ _)
      cases hcc : castCell parseDT xo (col_types xr) (getVal row xo) with
      | ok v => exact ⟨v, rfl⟩
      | error r => rw [hcc] at hx; simp [exceptOk] at hx
    have ht := ih orig req post rsn (fun y hy => hpre y (List.mem_cons_of_mem _ hy)) herr
    simp [validate_and_cast_row, hv, ht]

/-- C6: row validation examines the mapped columns in mapping order and
rejects the row at the first failing column, the remaining columns never
influencing the result; a null value or a string that is empty after
trimming is rejected as missing, the reason carrying the original
uploaded header. -/
theorem c6_first_failure_and_missing (parseDT : Value → Option (Int × Int)) (row : Row)
    (col_types : String → SemType) :
    (∀ (pre : List (String × String)) (orig req : String)
        (post : List (String × String)) (rsn : Reason),
      (∀ x ∈ pre, exceptOk (castCell parseDT x.1 (col_types x.2) (getVal row x.1)) = true) →
      castCell parseDT orig (col_types req) (getVal row orig) = .error rsn →
      validate_and_cast_row parseDT row (pre ++ (orig, req) :: post) col_types =
        .error rsn) ∧
    (∀ (orig : String) (ty : SemType) (val : Value),
      (val = .vnull ∨ ∃ s, val = .vstr s ∧ s.trim = "") →
      castCell parseDT orig ty val = .error (.missingValue orig)) := by
  refine ⟨validate_error_at_first_failure parseDT row col_types, ?_⟩
  rintro orig ty val (rfl | ⟨s, rfl, hs⟩)
  · simp [castCell, isMissing]
  · simp [castCell, isMissing, hs]

/-- Witness for C6: the row is rejected at column B with the missing-value
reason naming B, even though a later mapped column C is absent from the
row. -/
theorem c6_first_failure_and_missing_witness :
    validate_and_cast_row noDT [("A", Value.vstr "1"), ("B", Value.vstr " ")]
        ([("A", "A")] ++ ("B", "B") :: [("C", "C")]) (fun _ => SemType.tstr) =
      .error (.missingValue "B") :=
  (c6_first_failure_and_missing noDT [("A", Value.vstr "1"), ("B", Value.vstr " ")]
      (fun _ => SemType.tstr)).1 [("A", "A")] "B" "B" [("C", "C")]
    (.missingValue "B") (by with_unfolding_all decide) (by with_unfolding_all decide)

/-- Counterexample to C7: the integer cast of the unparsable string abc
raises in float() and is caught as a type error, a reason distinct from
both Non-integer value and Invalid integer. -/
theorem c7_counterexample_type_error :
    castCell noDT "CLAIM_COUNT" .tint (.vstr "abc") =
      .error (.typeError "CLAIM_COUNT") ∧
    Reason.typeError "CLAIM_COUNT" ≠ Reason.nonIntegerValue "CLAIM_COUNT" ∧
    Reason.typeError "CLAIM_COUNT" ≠ Reason.invalidInteger "CLAIM_COUNT" :=
  ⟨by with_unfolding_all decide, by decide, by decide⟩

/-- C7 (amended): the integer cast accepts exactly a whole number (an int,
or a float or numeric string with zero fractional part), producing that
integer; a numeric string with nonzero fractional part is rejected as
Non-integer value; a non-integral float and a non-numeric non-string value
are rejected as Invalid integer; a string that does not parse as a number
is rejected as a Type error; a null is rejected as missing. -/
theorem c7_integer_cast (parseDT : Value → Option (Int × Int)) (orig : String) :
    (∀ n : ℤ, castCell parseDT orig .tint (.vint n) = .ok (.vint n)) ∧
    (∀ q : ℚ, q.den = 1 → castCell parseDT orig .tint (.vfloat q) = .ok (.vint q.num)) ∧
    (∀ q : ℚ, q.den ≠ 1 →
      castCell parseDT orig .tint (.vfloat q) = .error (.invalidInteger orig)) ∧
    (∀ (s : String) (q : ℚ), s.trim ≠ "" → pyParseFloat s = some q → q.den = 1 →
      castCell parseDT orig .tint (.vstr s) = .ok (.vint q.num)) ∧
    (∀ (s : String) (q : ℚ), s.trim ≠ "" → pyParseFloat s = some q → q.den ≠ 1 →
      castCell parseDT orig .tint (.vstr s) = .error (.nonIntegerValue orig)) ∧
    (∀ s : String, s.trim ≠ "" → pyParseFloat s = none →
      castCell parseDT orig .tint (.vstr s) = .error (.typeError orig)) ∧
    (castCell parseDT orig .tint .vnull = .error (.missingValue orig)) ∧
    (∀ b, castCell parseDT orig .tint (.vbool b) = .error (.invalidInteger orig)) ∧
    (∀ d, castCell parseDT orig .tint (.vdate d) = .error (.invalidInteger orig)) ∧
    (∀ d t, castCell parseDT orig .tint (.vdatetime d t) = .error (.invalidInteger orig)) := by
  refine ⟨?_, ?_, ?_, ?_, ?_, ?_, ?_, ?_, ?_, ?_⟩
  · intro n
    simp [castCell, isMissing]
  · intro q h
    simp [castCell, isMissing, h]
  · intro q h
    simp [castCell, isMissing, h]
  · intro s q hs hp h
    simp [castCell, isMissing, hs, hp, h]
  · intro s q hs hp h
    simp [castCell, isMissing, hs, hp, h]
  · intro s hs hp
    simp [castCell, isMissing, hs, hp]
  · simp [castCell, isMissing]
  · intro b
    simp [castCell, isMissing]
  · intro d
    simp [castCell, isMissing]
  · intro d t
    simp [castCell, isMissing]

/-- Witness for the amended C7: the numeric string 2.5 is rejected as a
non-integer value. -/
theorem c7_integer_cast_witness :
    castCell noDT "CLAIM_COUNT" .tint (.vstr "2.5") =
      .error (.nonIntegerValue "CLAIM_COUNT") :=
  (c7_integer_cast noDT "CLAIM_COUNT").2.2.2.2.1 "2.5" (mkRat 5 2)
    (by with_unfolding_all decide) (by with_unfolding_all decide)
    (by with_unfolding_all decide)

/-- Witness for the amended C2: equal rendered strings make two string
values compare equal, via the characterization. -/
theorem c2_value_comparison_amended_witness :
    valuesEqual (.vstr "x") (.vstr "x") = true :=
  (c2_value_comparison_amended.1 (.vstr "x") (.vstr "x")).mpr
    (Or.inr (Or.inr ⟨by decide, by decide, rfl⟩))

/-- Witness for the amended C5: an exactly-matching header set passes the
column checks, via the characterization. -/
theorem c5_mapping_totality_iff_witness :
    check_columns ["NAME", "LOG_DATE"] ["NAME", "LOG_DATE"] = none :=
  (c5_mapping_totality_iff ["NAME", "LOG_DATE"] ["NAME", "LOG_DATE"]).mpr
    ⟨by decide, by decide⟩
